import Mathlib

/-!
# Pod-specification reconciliation engine: shallow embedding

Verification development for the pod-reconciliation core of the repository's
container-execution backend.  The repository ships the unit tests of this core
(`test_pod_generator.py`); the implementation module itself is not part of the
checked-out sources, so every operation below is modelled from the
specification's component design (spec.md sections 3, 4 and 7), as noted in
each doc comment.  Mappings are association lists, absence is `Option.none`,
fallible operations return `Except`.
-/

namespace PodGen

/-- Key→value mapping with string keys and values (labels, annotations,
resource requests/limits).  Invariant (spec section 3): keys are unique. -/
abbrev KVMap := List (String × String)

/-- First binding of key `k` in the mapping, if any. -/
def lookupKV : KVMap → String → Option String
  | [], _ => none
  | (k', v') :: rest, k => if k' = k then some v' else lookupKV rest k

/-- Insert or overwrite key `k` with value `v`: replaces the binding in place
when the key is present, appends a fresh binding otherwise. -/
def insertKV : KVMap → String → String → KVMap
  | [], k, v => [(k, v)]
  | (k', v') :: rest, k, v =>
    if k' = k then (k, v) :: rest else (k', v') :: insertKV rest k v

/-- Modelled from the spec (4.1): key-wise mapping merge.  The result starts
from base's mapping; every client key is inserted or overwritten. -/
def mergeMaps (base client : KVMap) : KVMap :=
  client.foldl (fun acc kv => insertKV acc kv.1 kv.2) base

/-- Modelled from the spec (4.1): scalar attribute merge — client's value wins
if non-null, else base's value survives. -/
def mergeScalar (b c : Option α) : Option α :=
  match c with
  | some v => some v
  | none => b

/-- Modelled from the spec (4.1): merge of an attribute that holds a mapping.
When the mapping is present on both sides it merges key-wise; an absent side
yields the other side. -/
def mergeMapOpt (b c : Option KVMap) : Option KVMap :=
  match b, c with
  | some bm, some cm => some (mergeMaps bm cm)
  | some bm, none => some bm
  | none, c => c

/-- Modelled from the spec (4.2): concatenation merge of a designated
list-typed field, base's sequence before client's, no deduplication; an
empty/absent sequence on either side yields the other side unchanged. -/
def extendSeq : Option (List α) → Option (List α) → Option (List α)
  | none, c => c
  | some [], c => c
  | b, none => b
  | b, some [] => b
  | some bl, some cl => some (bl ++ cl)

/-- Container resource requirements: request and limit mappings
(spec section 3). -/
structure ResourceRequirements where
  requests : Option KVMap
  limits : Option KVMap
deriving DecidableEq

/-- Modelled from the spec (4.1): resource requests/limits are mapping-valued
attributes and merge key-wise. -/
def mergeResources (b c : ResourceRequirements) : ResourceRequirements :=
  { requests := mergeMapOpt b.requests c.requests
    limits := mergeMapOpt b.limits c.limits }

/-- Merge of an optional resources attribute: both present merge key-wise per
field, an absent side yields the other side. -/
def mergeResourcesOpt : Option ResourceRequirements → Option ResourceRequirements →
    Option ResourceRequirements
  | some br, some cr => some (mergeResources br cr)
  | some br, none => some br
  | none, c => c

/-- Environment variable of a container (spec section 3). -/
structure EnvVar where
  name : Option String
  value : Option String
deriving DecidableEq

/-- Container port (spec section 3). -/
structure Port where
  name : Option String
  containerPort : Option Nat
deriving DecidableEq

/-- Volume mount of a container (spec section 3). -/
structure VolumeMount where
  name : Option String
  mountPath : Option String
deriving DecidableEq

/-- Container record (spec section 3): scalar fields, ordered sequences and a
resources record. -/
structure Container where
  name : Option String
  image : Option String
  command : Option (List String)
  args : Option (List String)
  env : Option (List EnvVar)
  env_from : Option (List String)
  ports : Option (List Port)
  volume_mounts : Option (List VolumeMount)
  stdin : Option Bool
  resources : Option ResourceRequirements
deriving DecidableEq

/-- Modelled from the spec (4.3): merge of one positional container pair —
the Object Merger's scalar rule for scalar fields, key-wise merge for the
resources mappings, and the List-Field Extender for the designated list
fields (`ports`, `env`, `env_from`, `volume_mounts`). -/
def reconcile_container_pair (b c : Container) : Container :=
  { name := mergeScalar b.name c.name
    image := mergeScalar b.image c.image
    command := mergeScalar b.command c.command
    args := mergeScalar b.args c.args
    env := extendSeq b.env c.env
    env_from := extendSeq b.env_from c.env_from
    ports := extendSeq b.ports c.ports
    volume_mounts := extendSeq b.volume_mounts c.volume_mounts
    stdin := mergeScalar b.stdin c.stdin
    resources := mergeResourcesOpt b.resources c.resources }

/-- Modelled from the spec (4.3): positional container reconciliation.
Index `i` of the result merges `base[i]` with `client[i]`; when the lengths
differ the elements beyond the shorter length are copied verbatim from the
longer sequence; either sequence empty yields the other. -/
def reconcile_containers : List Container → List Container → List Container
  | [], cs => cs
  | bs, [] => bs
  | b :: bs, c :: cs => reconcile_container_pair b c :: reconcile_containers bs cs

/-- Volume of a pod spec (spec section 3). -/
structure Volume where
  name : Option String
  host_path : Option String
deriving DecidableEq

/-- Pod spec record (spec section 3). -/
structure PodSpec where
  containers : List Container
  init_containers : Option (List Container)
  volumes : Option (List Volume)
  security_context : Option String
  host_network : Option Bool
  priority : Option Int
  hostname : Option String
  active_deadline_seconds : Option Nat
  image_pull_secrets : Option (List String)
deriving DecidableEq

/-- Modelled from the spec (4.4): whole pod-spec merge with both sides
present.  `containers` goes through the positional Container Reconciler;
`init_containers` is plain concatenation (base's before client's, never
field-merged); `volumes` extends via the List-Field Extender; the remaining
scalar fields (priority, hostname, active_deadline_seconds, security context,
host_network, image_pull_secrets) follow the Object Merger's scalar rule. -/
def reconcile_specs_core (b c : PodSpec) : PodSpec :=
  { containers := reconcile_containers b.containers c.containers
    init_containers := extendSeq b.init_containers c.init_containers
    volumes := extendSeq b.volumes c.volumes
    security_context := mergeScalar b.security_context c.security_context
    host_network := mergeScalar b.host_network c.host_network
    priority := mergeScalar b.priority c.priority
    hostname := mergeScalar b.hostname c.hostname
    active_deadline_seconds :=
      mergeScalar b.active_deadline_seconds c.active_deadline_seconds
    image_pull_secrets := mergeScalar b.image_pull_secrets c.image_pull_secrets }

/-- Modelled from the spec (4.4): spec reconciliation — either side absent
returns the other unchanged. -/
def reconcile_specs : Option PodSpec → Option PodSpec → Option PodSpec
  | some b, none => some b
  | none, c => c
  | some b, some c => some (reconcile_specs_core b c)

/-- Pod metadata (spec section 3): name, namespace, labels, annotations. -/
structure ObjectMeta where
  name : Option String
  namespace_ : Option String
  labels : Option KVMap
  annotations : Option KVMap
deriving DecidableEq

/-- Modelled from the spec (4.1): generic object merge applied to metadata —
mapping-aware for the labels/annotations attributes, the scalar rule
otherwise. -/
def merge_objects_meta (b c : ObjectMeta) : ObjectMeta :=
  { name := mergeScalar b.name c.name
    namespace_ := mergeScalar b.namespace_ c.namespace_
    labels := mergeMapOpt b.labels c.labels
    annotations := mergeMapOpt b.annotations c.annotations }

/-- Modelled from the spec (4.5): metadata merge — either side absent returns
the other unchanged. -/
def reconcile_metadata : Option ObjectMeta → Option ObjectMeta → Option ObjectMeta
  | some b, none => some b
  | none, c => c
  | some b, some c => some (merge_objects_meta b c)

/-- Pod descriptor (spec section 3): metadata plus spec. -/
structure Pod where
  api_version : Option String
  kind : Option String
  metadata : Option ObjectMeta
  spec : Option PodSpec
deriving DecidableEq

/-- Modelled from the spec (4.5): top-level pod reconciliation — either side
absent returns the other unchanged, otherwise metadata merges via the Object
Merger and spec via the Spec Reconciler. -/
def reconcile_pods : Option Pod → Option Pod → Option Pod
  | some b, none => some b
  | none, c => c
  | some b, some c =>
    some { api_version := mergeScalar b.api_version c.api_version
           kind := mergeScalar b.kind c.kind
           metadata := reconcile_metadata b.metadata c.metadata
           spec := reconcile_specs b.spec c.spec }

/-- Error surface of the engine (spec section 7). -/
inductive PodGenError where
  | configurationError
  | typeMismatch
  | deserializationError
  | podReconciliationError
deriving DecidableEq

/-- Dynamically typed attribute value of a generic object, as the List-Field
Extender sees it: unset, a non-list scalar, or an ordered sequence. -/
inductive FieldVal where
  | absent
  | scalar (s : String)
  | seq (xs : List String)
deriving DecidableEq

/-- An attribute counts as list-typed when it holds an ordered sequence or is
unset: spec 4.2 treats an absent sequence as an "empty/absent sequence" that
yields the other side, not as a type violation.  Only a scalar-valued
attribute violates the precondition. -/
def FieldVal.isListTyped : FieldVal → Bool
  | .scalar _ => false
  | _ => true

/-- A generic object for the List-Field Extender: named attributes holding
dynamically typed values. -/
structure DynObj where
  fields : List (String × FieldVal)
deriving DecidableEq

/-- First binding of attribute `f`, if any. -/
def lookupField : List (String × FieldVal) → String → Option FieldVal
  | [], _ => none
  | (k', v') :: rest, k => if k' = k then some v' else lookupField rest k

/-- Value of attribute `f` on `o`; an unbound attribute reads as unset. -/
def getField (o : DynObj) (f : String) : FieldVal :=
  (lookupField o.fields f).getD .absent

/-- Replace the binding of attribute `f` in place, appending when absent. -/
def setFields : List (String × FieldVal) → String → FieldVal → List (String × FieldVal)
  | [], k, v => [(k, v)]
  | (k', v') :: rest, k, v =>
    if k' = k then (k, v) :: rest else (k', v') :: setFields rest k v

/-- The object `o` with attribute `f` set to `v`. -/
def setField (o : DynObj) (f : String) (v : FieldVal) : DynObj :=
  ⟨setFields o.fields f v⟩

/-- Modelled from the spec (4.2): concatenation of two list-typed attribute
values — an empty/absent sequence on either side yields the other side
unchanged, otherwise base's sequence before client's.  (The scalar arms are
unreachable behind the Extender's type check.) -/
def extendFieldVal : FieldVal → FieldVal → FieldVal
  | .absent, c => c
  | .seq [], c => c
  | b, .absent => b
  | b, .seq [] => b
  | .seq bl, .seq cl => .seq (bl ++ cl)
  | _, c => c

/-- Modelled from the spec (4.2): `extend(base, client, field)` returns the
client object with the named field set to base's sequence concatenated before
client's; when the named attribute is not list-typed on base or on client it
fails with a TypeMismatch error, never silently coercing. -/
def extend_object_field (b c : DynObj) (f : String) : Except PodGenError DynObj :=
  let bf := getField b f
  let cf := getField c f
  if bf.isListTyped && cf.isListTyped then
    Except.ok (setField c f (extendFieldVal bf cf))
  else
    Except.error PodGenError.typeMismatch

/-! ## Association-list map lemmas -/

theorem lookupKV_insertKV_self (m : KVMap) (k v : String) :
    lookupKV (insertKV m k v) k = some v := by
  induction m with
  | nil => simp [insertKV, lookupKV]
  | cons kv rest ih =>
    obtain ⟨k', v'⟩ := kv
    by_cases h : k' = k
    · simp [insertKV, h, lookupKV]
    · simp [insertKV, h, lookupKV, ih]

theorem lookupKV_insertKV_ne (m : KVMap) (k v k' : String) (h : k ≠ k') :
    lookupKV (insertKV m k v) k' = lookupKV m k' := by
  induction m with
  | nil => simp [insertKV, lookupKV, h]
  | cons kv rest ih =>
    obtain ⟨k0, v0⟩ := kv
    by_cases h0 : k0 = k
    · subst h0
      simp [insertKV, lookupKV, h]
    · simp [insertKV, h0, lookupKV, ih]

theorem lookupKV_eq_none_of_not_mem (m : KVMap) (k : String)
    (h : k ∉ m.map Prod.fst) : lookupKV m k = none := by
  induction m with
  | nil => simp [lookupKV]
  | cons kv rest ih =>
    obtain ⟨k0, v0⟩ := kv
    simp only [List.map_cons, List.mem_cons] at h
    push_neg at h
    simpa [lookupKV, Ne.symm h.1] using ih h.2

theorem lookupKV_isSome_of_mem (m : KVMap) (k v : String) (h : (k, v) ∈ m) :
    (lookupKV m k).isSome := by
  induction m with
  | nil => simp at h
  | cons kv rest ih =>
    obtain ⟨k0, v0⟩ := kv
    rcases List.mem_cons.mp h with h1 | h1
    · obtain ⟨rfl, rfl⟩ := Prod.mk.injEq .. ▸ h1
      simp [lookupKV]
    · by_cases h0 : k0 = k
      · simp [lookupKV, h0]
      · simpa [lookupKV, h0] using ih h1

theorem lookupKV_of_mem_nodup (m : KVMap) (k v : String)
    (hn : (m.map Prod.fst).Nodup) (h : (k, v) ∈ m) : lookupKV m k = some v := by
  induction m with
  | nil => simp at h
  | cons kv rest ih =>
    obtain ⟨k0, v0⟩ := kv
    simp only [List.map_cons, List.nodup_cons] at hn
    rcases List.mem_cons.mp h with h1 | h1
    · obtain ⟨rfl, rfl⟩ := Prod.mk.injEq .. ▸ h1
      simp [lookupKV]
    · have hne : k0 ≠ k := by
        rintro rfl
        exact hn.1 (List.mem_map.mpr ⟨(k0, v), h1, rfl⟩)
      simpa [lookupKV, hne] using ih hn.2 h1

/-- Key-wise characterisation of `mergeMaps`: the client's binding wins when
present, otherwise the base's binding survives. -/
theorem lookupKV_mergeMaps (bm cm : KVMap) (hc : (cm.map Prod.fst).Nodup)
    (k : String) :
    lookupKV (mergeMaps bm cm) k =
      match lookupKV cm k with
      | some v => some v
      | none => lookupKV bm k := by
  induction cm generalizing bm with
  | nil => simp [mergeMaps, lookupKV]
  | cons kv rest ih =>
    obtain ⟨k0, v0⟩ := kv
    simp only [List.map_cons, List.nodup_cons] at hc
    have hstep : mergeMaps bm ((k0, v0) :: rest) = mergeMaps (insertKV bm k0 v0) rest := rfl
    rw [hstep, ih _ hc.2]
    by_cases h : k0 = k
    · subst h
      have hnone : lookupKV rest k0 = none := by
        apply lookupKV_eq_none_of_not_mem
        exact hc.1
      simp [lookupKV, hnone, lookupKV_insertKV_self]
    · simp [lookupKV, h, lookupKV_insertKV_ne bm k0 v0 k h]

theorem mem_keys_of_mem_mergeMaps (bm cm : KVMap) (k : String)
    (h : (lookupKV (mergeMaps bm cm) k).isSome) :
    (lookupKV bm k).isSome ∨ (lookupKV cm k).isSome := by
  induction cm generalizing bm with
  | nil => exact Or.inl h
  | cons kv rest ih =>
    obtain ⟨k0, v0⟩ := kv
    have hstep : mergeMaps bm ((k0, v0) :: rest) = mergeMaps (insertKV bm k0 v0) rest := rfl
    rw [hstep] at h
    rcases ih _ h with h1 | h1
    · by_cases h0 : k0 = k
      · subst h0
        exact Or.inr (by simp [lookupKV])
      · rw [lookupKV_insertKV_ne bm k0 v0 k h0] at h1
        exact Or.inl h1
    · by_cases h0 : k0 = k
      · subst h0
        exact Or.inr (by simp [lookupKV])
      · exact Or.inr (by simpa [lookupKV, h0] using h1)

/-- Decidable statement of the key-wise merge contract for one mapping
attribute: every client binding is inserted or overwritten into the result,
every base key not bound by the client keeps its base binding, and the result
binds no key that neither side binds. -/
def mapMergeOK (bm cm rm : KVMap) : Bool :=
  cm.all (fun kv => lookupKV rm kv.1 == some kv.2) &&
  bm.all (fun kv => !(lookupKV cm kv.1).isNone || (lookupKV rm kv.1 == lookupKV bm kv.1)) &&
  rm.all (fun kv => !(lookupKV bm kv.1).isNone || !(lookupKV cm kv.1).isNone)

theorem mapMergeOK_mergeMaps (bm cm : KVMap) (hc : (cm.map Prod.fst).Nodup) :
    mapMergeOK bm cm (mergeMaps bm cm) = true := by
  simp only [mapMergeOK, Bool.and_eq_true, List.all_eq_true]
  refine ⟨⟨?_, ?_⟩, ?_⟩
  · rintro ⟨k, v⟩ hkv
    have := lookupKV_mergeMaps bm cm hc k
    rw [lookupKV_of_mem_nodup cm k v hc hkv] at this
    simp [this]
  · rintro ⟨k, v⟩ hkv
    have := lookupKV_mergeMaps bm cm hc k
    rcases hlc : lookupKV cm k with _ | w
    · rw [hlc] at this
      simp [this]
    · simp [hlc]
  · rintro ⟨k, v⟩ hkv
    have hs : (lookupKV (mergeMaps bm cm) k).isSome :=
      lookupKV_isSome_of_mem _ k v hkv
    rcases mem_keys_of_mem_mergeMaps bm cm k hs with h1 | h1
    · rcases hx : lookupKV bm k with _ | w
      · rw [hx] at h1; simp at h1
      · simp [hx]
    · rcases hx : lookupKV cm k with _ | w
      · rw [hx] at h1; simp at h1
      · simp [hx]

/-- Extending a list field with both sequences present always concatenates,
base's elements before client's. -/
theorem extendSeq_some_some (bl cl : List α) :
    extendSeq (some bl) (some cl) = some (bl ++ cl) := by
  cases bl <;> cases cl <;> simp [extendSeq]

/-! ## Claim theorems: reconciliation -/

/-- C9: for every pod `P`, `reconcile_pods(P, absent) = P` and
`reconcile_pods(absent, P) = P` — an absent side of the pod reconciliation
returns the other side unchanged. -/
theorem c9_reconcile_pods_absent_identity (P : Pod) :
    reconcile_pods (some P) none = some P ∧ reconcile_pods none (some P) = some P :=
  ⟨rfl, rfl⟩

/-- C3: `reconcile_containers` pairs elements positionally — the result is the
index-wise merge of the common prefix followed by the verbatim tail of the
longer sequence; `[A,B]` with `[X]` gives `[merge(A,X), B]`, and an empty side
returns the other sequence exactly. -/
theorem c3_reconcile_containers_positional
    (bs cs : List Container) (A B X : Container) :
    reconcile_containers bs cs =
      (List.zipWith reconcile_container_pair bs cs ++
        bs.drop cs.length ++ cs.drop bs.length) ∧
    reconcile_containers [A, B] [X] = [reconcile_container_pair A X, B] ∧
    reconcile_containers [] cs = cs ∧
    reconcile_containers bs [] = bs := by
  refine ⟨?_, ?_, ?_, ?_⟩
  · induction bs generalizing cs with
    | nil => simp [reconcile_containers]
    | cons b bs ih =>
      cases cs with
      | nil => simp [reconcile_containers]
      | cons c cs => simp [reconcile_containers, ih]
  · rfl
  · cases cs <;> rfl
  · cases bs <;> rfl

/-- C4: when both pod specs carry `init_containers`, `reconcile_specs` merges
that field by plain concatenation — base's init containers followed by
client's, with no positional pairing. -/
theorem c4_reconcile_specs_init_containers_concat
    (b c : PodSpec) (bl cl : List Container)
    (hb : b.init_containers = some bl) (hc : c.init_containers = some cl) :
    reconcile_specs (some b) (some c) = some (reconcile_specs_core b c) ∧
    (reconcile_specs_core b c).init_containers = some (bl ++ cl) := by
  refine ⟨rfl, ?_⟩
  have : (reconcile_specs_core b c).init_containers =
      extendSeq b.init_containers c.init_containers := rfl
  rw [this, hb, hc, extendSeq_some_some]

/-- Witness for C4 at the spec's own instance: reconciling a spec with init
containers `[a]` against one with `[b]` yields `[a, b]`. -/
theorem c4_reconcile_specs_init_containers_concat_witness :
    (let a : Container :=
      { name := some "base_container1", image := none, command := none,
        args := none, env := none, env_from := none, ports := none,
        volume_mounts := none, stdin := none, resources := none }
     let b : Container :=
      { name := some "client_container1", image := none, command := none,
        args := none, env := none, env_from := none, ports := none,
        volume_mounts := none, stdin := none, resources := none }
     let sb : PodSpec :=
      { containers := [], init_containers := some [a], volumes := none,
        security_context := none, host_network := none, priority := none,
        hostname := none, active_deadline_seconds := none,
        image_pull_secrets := none }
     let sc : PodSpec :=
      { containers := [], init_containers := some [b], volumes := none,
        security_context := none, host_network := none, priority := none,
        hostname := none, active_deadline_seconds := none,
        image_pull_secrets := none }
     sb.init_containers = some [a] ∧ sc.init_containers = some [b] ∧
       (reconcile_specs (some sb) (some sc) = some (reconcile_specs_core sb sc) ∧
        (reconcile_specs_core sb sc).init_containers = some [a, b])) := by
  exact ⟨rfl, rfl, c4_reconcile_specs_init_containers_concat _ _ _ _ rfl rfl⟩

/-- C1: with base and client both present, the object merge treats every
attribute that is a key→value mapping on both sides (labels, annotations,
resource requests and limits) key-wise: every client binding is inserted or
overwritten, every non-conflicting base key survives, and no new key appears. -/
theorem c1_merge_objects_mapping_attributes
    (bn bns cn cns : Option String)
    (bl cl ba ca bq cq bli cli : KVMap)
    (hcl : (cl.map Prod.fst).Nodup) (hca : (ca.map Prod.fst).Nodup)
    (hcq : (cq.map Prod.fst).Nodup) (hcli : (cli.map Prod.fst).Nodup) :
    (merge_objects_meta ⟨bn, bns, some bl, some ba⟩ ⟨cn, cns, some cl, some ca⟩).labels
        = some (mergeMaps bl cl) ∧
    mapMergeOK bl cl (mergeMaps bl cl) = true ∧
    (merge_objects_meta ⟨bn, bns, some bl, some ba⟩ ⟨cn, cns, some cl, some ca⟩).annotations
        = some (mergeMaps ba ca) ∧
    mapMergeOK ba ca (mergeMaps ba ca) = true ∧
    (mergeResources ⟨some bq, some bli⟩ ⟨some cq, some cli⟩).requests
        = some (mergeMaps bq cq) ∧
    mapMergeOK bq cq (mergeMaps bq cq) = true ∧
    (mergeResources ⟨some bq, some bli⟩ ⟨some cq, some cli⟩).limits
        = some (mergeMaps bli cli) ∧
    mapMergeOK bli cli (mergeMaps bli cli) = true :=
  ⟨rfl, mapMergeOK_mergeMaps bl cl hcl, rfl, mapMergeOK_mergeMaps ba ca hca,
   rfl, mapMergeOK_mergeMaps bq cq hcq, rfl, mapMergeOK_mergeMaps bli cli hcli⟩

/-- Witness for C1 at the test suite's inputs: base labels `{foo1: bar1}` with
client labels `{bar: baz}`, base annotations `{foo1: bar1}` with client
annotations `{foo2: bar2}`, and overlapping request/limit mappings. -/
theorem c1_merge_objects_mapping_attributes_witness :
    ((([("bar", "baz")] : KVMap).map Prod.fst).Nodup ∧
     (([("foo2", "bar2")] : KVMap).map Prod.fst).Nodup ∧
     (([("cpu", "2"), ("memory", "1Gi")] : KVMap).map Prod.fst).Nodup ∧
     (([("memory", "200Mi")] : KVMap).map Prod.fst).Nodup) ∧
    (mapMergeOK [("foo1", "bar1")] [("bar", "baz")]
        (mergeMaps [("foo1", "bar1")] [("bar", "baz")]) = true ∧
     mapMergeOK [("foo1", "bar1")] [("foo2", "bar2")]
        (mergeMaps [("foo1", "bar1")] [("foo2", "bar2")]) = true ∧
     mapMergeOK [("cpu", "1"), ("memory", "1Gi")] [("cpu", "2"), ("memory", "1Gi")]
        (mergeMaps [("cpu", "1"), ("memory", "1Gi")] [("cpu", "2"), ("memory", "1Gi")]) = true ∧
     mapMergeOK [("memory", "100Mi")] [("memory", "200Mi")]
        (mergeMaps [("memory", "100Mi")] [("memory", "200Mi")]) = true) := by
  have h := c1_merge_objects_mapping_attributes
    none none none none
    [("foo1", "bar1")] [("bar", "baz")]
    [("foo1", "bar1")] [("foo2", "bar2")]
    [("cpu", "1"), ("memory", "1Gi")] [("cpu", "2"), ("memory", "1Gi")]
    [("memory", "100Mi")] [("memory", "200Mi")]
    (by decide) (by decide) (by decide) (by decide)
  exact ⟨⟨by decide, by decide, by decide, by decide⟩,
    h.2.1, h.2.2.2.1, h.2.2.2.2.2.1, h.2.2.2.2.2.2.2⟩

/-- C5: `extend(base, client, field)` fails with a TypeMismatch error exactly
when the named attribute is not list-typed on base or not list-typed on
client, and TypeMismatch is the only possible failure — a violation is always
reported, never silently coerced. -/
theorem c5_extend_object_field_typeMismatch (b c : DynObj) (f : String) :
    (extend_object_field b c f = Except.error PodGenError.typeMismatch ↔
      ((getField b f).isListTyped = false ∨ (getField c f).isListTyped = false)) ∧
    ((extend_object_field b c f).isOk = true ∨
      extend_object_field b c f = Except.error PodGenError.typeMismatch) := by
  constructor
  · unfold extend_object_field
    by_cases hb : (getField b f).isListTyped <;>
      by_cases hc : (getField c f).isListTyped <;>
        simp [hb, hc]
  · unfold extend_object_field
    by_cases hb : (getField b f).isListTyped <;>
      by_cases hc : (getField c f).isListTyped <;>
        simp [hb, hc, Except.isOk, Except.toBool]

/-- Witness for C5 at the test suite's inputs: a container object whose
`image` attribute is a scalar on the base side triggers TypeMismatch, while
`ports` sequences on both sides extend without error. -/
theorem c5_extend_object_field_typeMismatch_witness :
    (let bObj : DynObj := ⟨[("name", .scalar "base_container"), ("image", .scalar "image")]⟩
     let cObj : DynObj := ⟨[("name", .scalar "client_container")]⟩
     extend_object_field bObj cObj "image" = Except.error PodGenError.typeMismatch) ∧
    (let bObj : DynObj := ⟨[("ports", .seq ["base_port"])]⟩
     let cObj : DynObj := ⟨[("ports", .seq ["client_port"])]⟩
     (extend_object_field bObj cObj "ports").isOk = true) := by
  constructor
  · exact (c5_extend_object_field_typeMismatch
      ⟨[("name", .scalar "base_container"), ("image", .scalar "image")]⟩
      ⟨[("name", .scalar "client_container")]⟩ "image").1.mpr (Or.inl (by decide))
  · rcases (c5_extend_object_field_typeMismatch
      ⟨[("ports", .seq ["base_port"])]⟩ ⟨[("ports", .seq ["client_port"])]⟩ "ports").2 with h | h
    · exact h
    · exact absurd ((c5_extend_object_field_typeMismatch
        ⟨[("ports", .seq ["base_port"])]⟩ ⟨[("ports", .seq ["client_port"])]⟩ "ports").1.mp h)
        (by decide)

/-! ## Identifier Sanitizer (spec 4.6) and the legal-name pattern

Strings are embedded as their character sequences (`List Char`); `strOf`
converts a literal. -/

/-- Character sequence of a string literal. -/
def strOf (s : String) : List Char := s.toList

/-- Lowercase-alphanumeric character class `[a-z0-9]`. -/
def isLowerAlnum (ch : Char) : Bool :=
  ('a' ≤ ch && ch ≤ 'z') || ('0' ≤ ch && ch ≤ '9')

/-- Character class `[-a-z0-9]` of a legal resource-name segment. -/
def isNameChar (ch : Char) : Bool :=
  isLowerAlnum ch || ch = '-'

/-- Hyphen or dot — the characters stripped from a truncated prefix. -/
def isDashDot (ch : Char) : Bool :=
  ch = '-' || ch = '.'

/-- Modelled from the spec (4.6): repeatedly strip trailing hyphen/dot
characters until the last character is not one of them or the list is
empty. -/
def rstripDashDot (l : List Char) : List Char :=
  l.rdropWhile isDashDot

/-- Modelled from the spec (4.6): Identifier Sanitizer for label-class names —
truncate the candidate to its first 54 characters, strip trailing
hyphen/dot characters, then append a hyphen plus an 8-character lowercase
alphanumeric random suffix.  The random suffix is drawn outside the pure
core, so it is passed explicitly. -/
def add_unique_suffix (name sfx : List Char) : List Char :=
  rstripDashDot (name.take 54) ++ '-' :: sfx

/-- Dot-separated segments of a name; an empty name has one empty segment. -/
def splitOnDot : List Char → List (List Char)
  | [] => [[]]
  | ch :: rest =>
    let r := splitOnDot rest
    if ch = '.' then [] :: r
    else (ch :: r.headD []) :: r.tail

/-- One segment of the orchestration API's legal resource-name pattern:
nonempty, characters in `[-a-z0-9]`, first and last character alphanumeric. -/
def legalSegment (l : List Char) : Bool :=
  !l.isEmpty && l.all isNameChar &&
    isLowerAlnum (l.headD '-') && isLowerAlnum (l.getLastD '-')

/-- The orchestration API's legal resource-name pattern
`[a-z0-9]([-a-z0-9]*[a-z0-9])?(\.[a-z0-9]([-a-z0-9]*[a-z0-9])?)*`:
every dot-separated segment is legal. -/
def matchesLegalName (l : List Char) : Bool :=
  (splitOnDot l).all legalSegment

/-- Apply `f` to the last element of a list of segments. -/
def modifyLast (f : List Char → List Char) : List (List Char) → List (List Char)
  | [] => []
  | [s] => [f s]
  | s :: ss => s :: modifyLast f ss

theorem splitOnDot_ne_nil (l : List Char) : splitOnDot l ≠ [] := by
  cases l with
  | nil => simp [splitOnDot]
  | cons ch rest =>
    by_cases h : ch = '.' <;> simp [splitOnDot, h]

theorem modifyLast_cons (f : List Char → List Char) (x : List Char)
    (S : List (List Char)) (h : S ≠ []) :
    modifyLast f (x :: S) = x :: modifyLast f S := by
  cases S with
  | nil => exact absurd rfl h
  | cons s ss => rfl

theorem splitOnDot_append (l q : List Char) (hq : ∀ c ∈ q, c ≠ '.') :
    splitOnDot (l ++ q) = modifyLast (· ++ q) (splitOnDot l) := by
  induction l with
  | nil =>
    have : splitOnDot q = [q] := by
      induction q with
      | nil => rfl
      | cons c q' ihq =>
        have hc : c ≠ '.' := hq c (List.mem_cons_self c q')
        have hq' : ∀ x ∈ q', x ≠ '.' := fun x hx => hq x (List.mem_cons_of_mem c hx)
        simp [splitOnDot, hc, ihq hq']
    simp [this, splitOnDot, modifyLast]
  | cons ch l' ih =>
    have hdot : ∀ x : List Char, splitOnDot ('.' :: x) = [] :: splitOnDot x := by
      intro x
      simp [splitOnDot]
    have hother : ∀ x : List Char, ch ≠ '.' →
        splitOnDot (ch :: x) = (ch :: (splitOnDot x).headD []) :: (splitOnDot x).tail := by
      intro x hx
      simp [splitOnDot, hx]
    by_cases h : ch = '.'
    · subst h
      have hS := splitOnDot_ne_nil l'
      rw [List.cons_append, hdot, hdot, ih, modifyLast_cons _ _ _ hS]
    · rw [List.cons_append, hother _ h, hother _ h, ih]
      rcases hS : splitOnDot l' with _ | ⟨s, ss⟩
      · exact absurd hS (splitOnDot_ne_nil l')
      · cases ss with
        | nil => simp [modifyLast]
        | cons s1 ss1 => simp [modifyLast]

theorem all_modifyLast (P : List Char → Bool) (f : List Char → List Char)
    (S : List (List Char)) (hS : S.all P = true)
    (hf : ∀ s, P s = true → P (f s) = true) :
    (modifyLast f S).all P = true := by
  induction S with
  | nil => simp [modifyLast]
  | cons s ss ih =>
    cases ss with
    | nil =>
      simp only [List.all_cons, List.all_nil, Bool.and_true] at hS
      simpa [modifyLast] using hf s hS
    | cons s1 ss1 =>
      simp only [List.all_cons, Bool.and_eq_true] at hS ⊢
      rw [modifyLast_cons _ _ _ (by simp)]
      simp only [List.all_cons, Bool.and_eq_true]
      refine ⟨hS.1, ?_⟩
      have := ih (by simp [hS.2.1, hS.2.2])
      simpa [List.all_cons] using this

theorem lowerAlnum_isNameChar (c : Char) (h : isLowerAlnum c = true) :
    isNameChar c = true := by
  simp [isNameChar, h]

theorem legalSegment_append_suffix (s sfx : List Char)
    (hs : legalSegment s = true) (ha : sfx.all isLowerAlnum = true)
    (hne : sfx ≠ []) :
    legalSegment (s ++ '-' :: sfx) = true := by
  simp only [legalSegment, Bool.and_eq_true, Bool.not_eq_true'] at hs
  obtain ⟨⟨⟨hsne, hall⟩, hhead⟩, hlast⟩ := hs
  cases s with
  | nil => simp [List.isEmpty] at hsne
  | cons a s' =>
    have hsfxname : sfx.all isNameChar = true := by
      rw [List.all_eq_true] at ha ⊢
      exact fun c hc => lowerAlnum_isNameChar c (ha c hc)
    have hlast' : isLowerAlnum (((a :: s') ++ '-' :: sfx).getLastD '-') = true := by
      rw [List.getLastD_eq_getLast?, List.getLast?_append]
      have : ('-' :: sfx).getLast? = sfx.getLast? := by
        rcases sfx with _ | ⟨x, xs⟩
        · exact absurd rfl hne
        · simp [List.getLast?]
      rw [this, List.getLast?_eq_getLast sfx hne]
      simp only [Option.or_some, Option.getD_some]
      exact (List.all_eq_true.mp ha) _ (List.getLast_mem hne)
    simp only [legalSegment, Bool.and_eq_true]
    refine ⟨⟨⟨by simp, ?_⟩, ?_⟩, hlast'⟩
    · rw [List.all_append]
      have hdash : ('-' :: sfx).all isNameChar = true := by
        simp only [List.all_cons, Bool.and_eq_true]
        exact ⟨by decide, hsfxname⟩
      simp [hall, hdash]
    · simpa using hhead

theorem matchesLegalName_append_suffix (p sfx : List Char)
    (hp : matchesLegalName p = true) (ha : sfx.all isLowerAlnum = true)
    (hne : sfx ≠ []) :
    matchesLegalName (p ++ '-' :: sfx) = true := by
  have hq : ∀ c ∈ ('-' :: sfx), c ≠ '.' := by
    intro c hc
    rcases List.mem_cons.mp hc with rfl | hc
    · decide
    · intro heq
      have := (List.all_eq_true.mp ha) c hc
      rw [heq] at this
      exact absurd this (by decide)
  rw [matchesLegalName, splitOnDot_append p ('-' :: sfx) hq]
  exact all_modifyLast legalSegment _ _ hp
    (fun s hs => legalSegment_append_suffix s sfx hs ha hne)

theorem rstripDashDot_length_le (l : List Char) :
    (rstripDashDot l).length ≤ l.length :=
  (List.rdropWhile_prefix isDashDot l).length_le

/-- C2 (amended): the sanitized name has length at most 63, its characters
before the final 9 are the input truncated to its first 54 characters with
trailing hyphen/dot characters stripped, and its final 9 characters are a
hyphen followed by the 8-character lowercase alphanumeric suffix; the whole
output matches the orchestration API's legal resource-name pattern whenever
the stripped truncated prefix itself matches that pattern (an input whose
prefix strips to an empty or illegal string yields an illegal name, see the
counterexample). -/
theorem c2_add_unique_suffix_amended (name sfx : List Char)
    (hlen : sfx.length = 8) (halnum : sfx.all isLowerAlnum = true) :
    (add_unique_suffix name sfx).length ≤ 63 ∧
    (add_unique_suffix name sfx).take ((add_unique_suffix name sfx).length - 9)
        = rstripDashDot (name.take 54) ∧
    (add_unique_suffix name sfx).drop ((add_unique_suffix name sfx).length - 9)
        = '-' :: sfx ∧
    (matchesLegalName (rstripDashDot (name.take 54)) = true →
      matchesLegalName (add_unique_suffix name sfx) = true) := by
  have hp : (rstripDashDot (name.take 54)).length ≤ 54 := by
    calc (rstripDashDot (name.take 54)).length
        ≤ (name.take 54).length := rstripDashDot_length_le _
      _ ≤ 54 := by rw [List.length_take]; exact min_le_left _ _
  have hne : sfx ≠ [] := by
    intro h
    rw [h] at hlen
    simp at hlen
  have hout : (add_unique_suffix name sfx).length
      = (rstripDashDot (name.take 54)).length + 9 := by
    rw [add_unique_suffix, List.length_append]
    simp [hlen]
  have hsub : (rstripDashDot (name.take 54)).length + 9 - 9
      = (rstripDashDot (name.take 54)).length := by omega
  refine ⟨?_, ?_, ?_, ?_⟩
  · rw [hout]; omega
  · rw [hout, hsub, add_unique_suffix, List.take_left]
  · rw [hout, hsub, add_unique_suffix, List.drop_left]
  · intro hpLegal
    exact matchesLegalName_append_suffix _ sfx hpLegal halnum hne

/-- C2 counterexample: the input `"---"` is ASCII of length 3 ending in
hyphens, the suffix is a legal 8-character lowercase alphanumeric string, yet
the sanitized output `"-abcd1234"` starts with a hyphen and fails the legal
resource-name pattern — the claim's legality conjunct is false as stated. -/
theorem c2_add_unique_suffix_counterexample :
    ((strOf "abcd1234").length = 8 ∧ (strOf "abcd1234").all isLowerAlnum = true) ∧
    matchesLegalName (add_unique_suffix (strOf "---") (strOf "abcd1234")) = false := by
  decide

/-- Witness for the amended C2 at a test-suite input with a trailing hyphen. -/
theorem c2_add_unique_suffix_amended_witness :
    ((strOf "abcd1234").length = 8 ∧
     (strOf "abcd1234").all isLowerAlnum = true ∧
     matchesLegalName (rstripDashDot ((strOf "pod-name-with-hyphen-").take 54)) = true) ∧
    ((add_unique_suffix (strOf "pod-name-with-hyphen-") (strOf "abcd1234")).length ≤ 63 ∧
     (add_unique_suffix (strOf "pod-name-with-hyphen-") (strOf "abcd1234")).take
        ((add_unique_suffix (strOf "pod-name-with-hyphen-") (strOf "abcd1234")).length - 9)
        = rstripDashDot ((strOf "pod-name-with-hyphen-").take 54) ∧
     (add_unique_suffix (strOf "pod-name-with-hyphen-") (strOf "abcd1234")).drop
        ((add_unique_suffix (strOf "pod-name-with-hyphen-") (strOf "abcd1234")).length - 9)
        = '-' :: strOf "abcd1234" ∧
     matchesLegalName (add_unique_suffix (strOf "pod-name-with-hyphen-") (strOf "abcd1234")) = true) := by
  have h := c2_add_unique_suffix_amended (strOf "pod-name-with-hyphen-") (strOf "abcd1234")
    (by decide) (by decide)
  exact ⟨⟨by decide, by decide, by decide⟩, h.1, h.2.1, h.2.2.1, h.2.2.2 (by decide)⟩

/-! ## Label-Safe Encoder (spec 4.7) and Label/Annotation Builder (spec 4.8) -/

/-- Label-legal character class: alphanumerics plus `-`, `_`, `.`. -/
def isLabelChar (ch : Char) : Bool :=
  isLowerAlnum ch || ('A' ≤ ch && ch ≤ 'Z') || ch = '-' || ch = '_' || ch = '.'

/-- Digit `n < 36` rendered as a lowercase alphanumeric character. -/
def lowerAlnumDigit (n : Nat) : Char :=
  if n < 10 then Char.ofNat (48 + n) else Char.ofNat (97 + (n - 10) % 26)

/-- Modelled from the spec (4.7): short deterministic content digest of the
original, unsanitized value.  The spec's Design Notes leave the exact digest
algorithm open; the model uses a 9-character base-36 rendering of a
polynomial fold, which is deterministic and always 9 characters long. -/
def digestChars (l : List Char) : List Char :=
  (List.range 9).map (fun i =>
    lowerAlnumDigit (l.foldl (fun a ch => (a * 31 + ch.toNat) % 101559956668416) 5381
      / 36 ^ i % 36))

/-- Modelled from the spec (4.7): Label-Safe Encoder — strip illegal
characters from the candidate, append a hyphen plus the content digest of the
original value, and when the combined result exceeds the 63-character label
budget truncate the stripped prefix while always preserving the digest suffix
intact (53 = 63 minus the 10 characters of `-` plus digest). -/
def make_safe_label_value (s : String) : String :=
  if (s.toList.filter isLabelChar ++ '-' :: digestChars s.toList).length ≤ 63 then
    String.mk (s.toList.filter isLabelChar ++ '-' :: digestChars s.toList)
  else
    String.mk ((s.toList.filter isLabelChar).take 53 ++ '-' :: digestChars s.toList)

/-- Modelled from the spec (4.7): a point-in-time timestamp becomes
label-legal by replacing the illegal separators ':' and '+' with '-'. -/
def datetime_to_label_safe_datestring (d : String) : String :=
  String.mk (d.toList.map (fun ch => if ch = ':' || ch = '+' then '-' else ch))

/-- Modelled from the spec (4.8): the orchestrator's version string is
deployment configuration; the model fixes a representative value carrying the
'+' a local build may contain. -/
def airflowVersion : String := "2.10.3+local"

/-- Version string with '+' replaced by '-' for label legality (spec 4.8). -/
def replacePlus (s : String) : String :=
  String.mk (s.toList.map (fun ch => if ch = '+' then '-' else ch))

/-- A mapping fragment holding one pair when the value is supplied and
nothing otherwise. -/
def optLabel (key : String) (v : Option String) : KVMap :=
  match v with
  | some s => [(key, s)]
  | none => []

/-- Modelled from the spec (4.8): canonical identity label mapping — always
the sanitized dag and task ids, the stringified try number, the fixed
executor-identity flag and the version label with '+' replaced; the worker
id, map index, run id and logical date appear only when supplied (the
repository's test suite pins the omitted-worker case to an absent label). -/
def build_labels_for_k8s_executor_pod (dag_id task_id : String) (try_number : Nat)
    (airflow_worker : Option String) (map_index : Option Nat)
    (run_id : Option String) (logical_date : Option String) : KVMap :=
  [("dag_id", make_safe_label_value dag_id),
   ("task_id", make_safe_label_value task_id),
   ("try_number", toString try_number),
   ("kubernetes_executor", "True"),
   ("airflow_version", replacePlus airflowVersion)] ++
  optLabel "airflow-worker" (airflow_worker.map make_safe_label_value) ++
  optLabel "map_index" (map_index.map toString) ++
  optLabel "run_id" (run_id.map make_safe_label_value) ++
  optLabel "logical_date" (logical_date.map datetime_to_label_safe_datestring)

/-- Lexicographic comparison of character sequences (code-point order), the
order used to sort selector keys ascending. -/
def charsLe : List Char → List Char → Bool
  | [], _ => true
  | _ :: _, [] => false
  | a :: as, b :: bs => if a = b then charsLe as bs else decide (a < b)

/-- Key order on strings. -/
def strLeB (a b : String) : Bool := charsLe a.toList b.toList

/-- Insert a pair into a key-sorted list, keeping it sorted. -/
def insertPairSorted (kv : String × String) : KVMap → KVMap
  | [] => [kv]
  | x :: xs => if strLeB kv.1 x.1 then kv :: x :: xs else x :: insertPairSorted kv xs

/-- Sort a mapping's pairs by key, ascending. -/
def sortPairs (l : KVMap) : KVMap := l.foldr insertPairSorted []

/-- Decidable key-sortedness of a pair list. -/
def pairsSorted : KVMap → Bool
  | [] => true
  | [_] => true
  | x :: y :: rest => strLeB x.1 y.1 && pairsSorted (y :: rest)

/-- One selector entry, `key=value`. -/
def renderPair (kv : String × String) : String := kv.1 ++ "=" ++ kv.2

/-- Comma-joined entries of a selector. -/
def joinComma : List String → String
  | [] => ""
  | [s] => s
  | s :: rest => s ++ "," ++ joinComma rest

/-- The entry list of the canonical selector: `key=value` for every built
label except the version label, keys sorted ascending, and — exactly when the
worker id is omitted — the bare worker-identity key with no value. -/
def selectorEntries (labels : KVMap) (airflow_worker : Option String) : List String :=
  (sortPairs (labels.filter (fun kv => kv.1 != "airflow_version"))).map renderPair ++
  (match airflow_worker with
   | none => ["airflow-worker"]
   | some _ => [])

/-- Modelled from the spec (4.8): canonical query selector derived from the
same inputs as the labels. -/
def build_selector_for_k8s_executor_pod (dag_id task_id : String) (try_number : Nat)
    (airflow_worker : Option String) (map_index : Option Nat)
    (run_id : Option String) (logical_date : Option String) : String :=
  joinComma (selectorEntries
    (build_labels_for_k8s_executor_pod dag_id task_id try_number
      airflow_worker map_index run_id logical_date) airflow_worker)

/-! ## Sorting lemmas -/

theorem charsLe_total (a b : List Char) : charsLe a b = true ∨ charsLe b a = true := by
  induction a generalizing b with
  | nil => exact Or.inl rfl
  | cons x xs ih =>
    cases b with
    | nil => exact Or.inr rfl
    | cons y ys =>
      by_cases h : x = y
      · subst h
        rcases ih ys with h1 | h1
        · exact Or.inl (by simp [charsLe, h1])
        · exact Or.inr (by simp [charsLe, h1])
      · rcases lt_or_gt_of_ne h with h1 | h1
        · exact Or.inl (by simp [charsLe, h, h1])
        · exact Or.inr (by simp [charsLe, Ne.symm h, h1])

theorem strLeB_total (a b : String) : strLeB a b = true ∨ strLeB b a = true :=
  charsLe_total a.toList b.toList

theorem insertPairSorted_sorted (kv : String × String) (l : KVMap)
    (hl : pairsSorted l = true) : pairsSorted (insertPairSorted kv l) = true := by
  induction l with
  | nil => rfl
  | cons x xs ih =>
    by_cases hc : strLeB kv.1 x.1
    · simp [insertPairSorted, hc, pairsSorted, hl]
    · have hxkv : strLeB x.1 kv.1 = true := by
        rcases strLeB_total kv.1 x.1 with h1 | h1
        · exact absurd h1 hc
        · exact h1
      simp only [insertPairSorted, if_neg hc]
      cases xs with
      | nil => simp [insertPairSorted, pairsSorted, hxkv]
      | cons y ys =>
        have hxy : strLeB x.1 y.1 = true := by
          simp only [pairsSorted, Bool.and_eq_true] at hl
          exact hl.1
        have hys : pairsSorted (y :: ys) = true := by
          simp only [pairsSorted, Bool.and_eq_true] at hl
          exact hl.2
        have htail := ih hys
        by_cases hd : strLeB kv.1 y.1
        · simp only [insertPairSorted, if_pos hd] at htail ⊢
          simp [pairsSorted, hxkv, htail, hd, hys]
        · simp only [insertPairSorted, if_neg hd] at htail ⊢
          simp [pairsSorted, hxy, htail]

theorem sortPairs_sorted (l : KVMap) : pairsSorted (sortPairs l) = true := by
  induction l with
  | nil => rfl
  | cons x xs ih => exact insertPairSorted_sorted x (sortPairs xs) ih

theorem insertPairSorted_perm (kv : String × String) (l : KVMap) :
    (insertPairSorted kv l).Perm (kv :: l) := by
  induction l with
  | nil => exact List.Perm.refl _
  | cons x xs ih =>
    by_cases hc : strLeB kv.1 x.1
    · simp only [insertPairSorted, if_pos hc]
      exact List.Perm.refl _
    · simp only [insertPairSorted, if_neg hc]
      exact (ih.cons x).trans (List.Perm.swap kv x xs)

theorem sortPairs_perm (l : KVMap) : (sortPairs l).Perm l := by
  induction l with
  | nil => exact List.Perm.refl _
  | cons x xs ih =>
    exact (insertPairSorted_perm x (sortPairs xs)).trans (ih.cons x)

theorem all_of_perm (p : String × String → Bool) (l l' : KVMap)
    (h : l.Perm l') (hp : l'.all p = true) : l.all p = true := by
  rw [List.all_eq_true] at hp ⊢
  exact fun x hx => hp x (h.subset hx)

theorem filter_all_ne_version (l : KVMap) :
    (l.filter (fun kv => kv.1 != "airflow_version")).all
      (fun kv => kv.1 != "airflow_version") = true := by
  rw [List.all_eq_true]
  intro x hx
  exact (List.mem_filter.mp hx).2

/-- C6: `build_selector` is the comma-join of the `key=value` renderings of
the built label mapping with keys sorted ascending and the version label
always excluded, and exactly when the worker id is omitted the bare
worker-identity key with no value is appended; the sorted entry list is a
permutation of the built labels minus the version label. -/
theorem c6_build_selector_canonical (dag_id task_id : String) (try_number : Nat)
    (airflow_worker : Option String) (map_index : Option Nat)
    (run_id : Option String) (logical_date : Option String) :
    (build_selector_for_k8s_executor_pod dag_id task_id try_number
        airflow_worker map_index run_id logical_date =
      joinComma
        ((sortPairs ((build_labels_for_k8s_executor_pod dag_id task_id try_number
            airflow_worker map_index run_id logical_date).filter
              (fun kv => kv.1 != "airflow_version"))).map renderPair ++
          (match airflow_worker with
           | none => ["airflow-worker"]
           | some _ => []))) ∧
    pairsSorted (sortPairs ((build_labels_for_k8s_executor_pod dag_id task_id try_number
        airflow_worker map_index run_id logical_date).filter
          (fun kv => kv.1 != "airflow_version"))) = true ∧
    (sortPairs ((build_labels_for_k8s_executor_pod dag_id task_id try_number
        airflow_worker map_index run_id logical_date).filter
          (fun kv => kv.1 != "airflow_version"))).all
        (fun kv => kv.1 != "airflow_version") = true ∧
    (sortPairs ((build_labels_for_k8s_executor_pod dag_id task_id try_number
        airflow_worker map_index run_id logical_date).filter
          (fun kv => kv.1 != "airflow_version"))).Perm
      ((build_labels_for_k8s_executor_pod dag_id task_id try_number
        airflow_worker map_index run_id logical_date).filter
          (fun kv => kv.1 != "airflow_version")) := by
  refine ⟨rfl, sortPairs_sorted _, ?_, sortPairs_perm _⟩
  exact all_of_perm _ _ _ (sortPairs_perm _) (filter_all_ne_version _)

/-! ## Template Loader (spec 4.9) -/

/-- What the Template Loader can find at a path. -/
inductive FileContent where
  | missing
  | malformed
  | wellFormed (p : Pod)
deriving DecidableEq

/-- The file system as the loader sees it. -/
abbrev FileSystem := String → FileContent

/-- The empty/default pod descriptor. -/
def emptyPod : Pod :=
  { api_version := none, kind := none, metadata := none, spec := none }

/-- Outcome of a template load: the result plus the diagnostic records
emitted while loading. -/
structure LoadResult where
  result : Except PodGenError Pod
  diagnostics : List String

/-- Modelled from the spec (4.9): Template Loader — a missing file yields the
empty/default descriptor plus one diagnostic record and no failure (enabling
optional templates); an existing but malformed file fails with
DeserializationError and is never coerced into a partial pod. -/
def deserialize_model_file (fs : FileSystem) (path : String) : LoadResult :=
  match fs path with
  | .missing =>
    { result := Except.ok emptyPod, diagnostics := [path ++ " does not exist"] }
  | .malformed =>
    { result := Except.error PodGenError.deserializationError, diagnostics := [] }
  | .wellFormed p =>
    { result := Except.ok p, diagnostics := [] }

/-- C8: for every path naming a non-existent template file, the Template
Loader returns the empty/default pod descriptor, records exactly one
diagnostic, and raises no failure. -/
theorem c8_deserialize_missing_file (fs : FileSystem) (path : String)
    (h : fs path = FileContent.missing) :
    (deserialize_model_file fs path).result = Except.ok emptyPod ∧
    (deserialize_model_file fs path).diagnostics.length = 1 := by
  simp [deserialize_model_file, h]

/-- Witness for C8 at the test suite's scenario: an empty file system and the
path `non_existent.yaml`. -/
theorem c8_deserialize_missing_file_witness :
    ((fun _ : String => FileContent.missing) "non_existent.yaml" = FileContent.missing) ∧
    ((deserialize_model_file (fun _ => FileContent.missing) "non_existent.yaml").result
        = Except.ok emptyPod ∧
     (deserialize_model_file (fun _ => FileContent.missing) "non_existent.yaml").diagnostics.length
        = 1) :=
  ⟨rfl, c8_deserialize_missing_file (fun _ => FileContent.missing) "non_existent.yaml" rfl⟩

/-! ## Pod Constructor (spec 4.10) -/

/-- Modelled from the spec (4.10): the fixed app-identity label the
constructor adds; its value is a deployment constant. -/
def appIdentityLabel : String := "airflow"

/-- The override argument of the Pod Constructor: absent, a well-formed pod,
or an object whose shape cannot be read (every attribute access fails, e.g.
an AttributeError surfacing after a client-library upgrade). -/
inductive OverridePod where
  | absent
  | pod (p : Pod)
  | malformed
deriving DecidableEq

/-- Internal shape-reading failure (spec 4.10, 7): one of the causes the
constructor collapses into PodReconciliationError. -/
inductive ShapeError where
  | attributeError
deriving DecidableEq

/-- Reading the override object's shape — the step that can fail. -/
def readOverride : OverridePod → Except ShapeError (Option Pod)
  | .absent => Except.ok none
  | .pod p => Except.ok (some p)
  | .malformed => Except.error ShapeError.attributeError

/-- Modelled from the spec (4.10): the per-task annotations carry the raw
caller-supplied identifiers unchanged — never sanitized, digested or
truncated — plus the stringified try number and, when supplied, the map
index, run id and the timestamp's exact form. -/
def construct_annotations (dag_id task_id : String) (try_number : Nat)
    (map_index : Option Nat) (run_id : Option String) (date : Option String) : KVMap :=
  [("dag_id", dag_id), ("task_id", task_id), ("try_number", toString try_number)] ++
  optLabel "map_index" (map_index.map toString) ++
  optLabel "run_id" run_id ++
  optLabel "logical_date" date

/-- Modelled from the spec (4.10): the dynamically constructed per-task pod —
pod id sanitized into the final name, identity labels (plus the fixed
app-identity label) and raw-identity annotations, the caller's namespace,
a primary container carrying the caller-supplied image and argument vector
and the fixed marker environment variable identifying execution under this
executor. -/
def construct_dynamic_pod (dag_id task_id pod_id : String) (kube_image : Option String)
    (try_number : Nat) (date : Option String) (args : List String)
    (namespace_ : String) (map_index : Option Nat) (run_id : Option String)
    (scheduler_job_id : String) (sfx : List Char) : Pod :=
  { api_version := some "v1"
    kind := some "Pod"
    metadata := some
      { name := some (String.mk (add_unique_suffix pod_id.toList sfx))
        namespace_ := some namespace_
        labels := some (build_labels_for_k8s_executor_pod dag_id task_id try_number
          (some scheduler_job_id) map_index run_id date ++ [("app", appIdentityLabel)])
        annotations := some (construct_annotations dag_id task_id try_number
          map_index run_id date) }
    spec := some
      { containers :=
          [{ name := some "base", image := kube_image, command := none,
             args := some args,
             env := some [{ name := some "AIRFLOW_IS_K8S_EXECUTOR_POD",
                            value := some "True" }],
             env_from := none, ports := none, volume_mounts := none,
             stdin := none, resources := none }]
        init_containers := none, volumes := none, security_context := none,
        host_network := none, priority := none, hostname := none,
        active_deadline_seconds := none, image_pull_secrets := none } }

/-- Modelled from the spec (4.10): Pod Constructor — start from the base
worker pod, overlay the dynamically constructed per-task pod, then the
override, via the Pod Reconciler; any failure while reading the override
object's shape is caught and re-signaled as a single PodReconciliationError.
The random suffix is passed explicitly (spec section 5: the random source is
external to the pure core). -/
def construct_pod (dag_id task_id pod_id : String) (kube_image : Option String)
    (try_number : Nat) (date : Option String) (args : List String)
    (pod_override_object : OverridePod) (base_worker_pod : Pod)
    (namespace_ : String) (map_index : Option Nat) (run_id : Option String)
    (scheduler_job_id : String) (sfx : List Char) : Except PodGenError Pod :=
  match readOverride pod_override_object with
  | .error _ => Except.error PodGenError.podReconciliationError
  | .ok ov =>
    match reconcile_pods (reconcile_pods (some base_worker_pod)
        (some (construct_dynamic_pod dag_id task_id pod_id kube_image try_number date
          args namespace_ map_index run_id scheduler_job_id sfx))) ov with
    | some p => Except.ok p
    | none => Except.error PodGenError.podReconciliationError

/-- C7: every failure `construct_pod` can signal is the single
PodReconciliationError — no internal shape-reading cause propagates in any
other form — and a malformed override object (whose shape cannot be read)
always produces exactly that error. -/
theorem c7_construct_pod_error_surface (dag_id task_id pod_id : String)
    (kube_image : Option String) (try_number : Nat) (date : Option String)
    (args : List String) (pod_override_object : OverridePod) (base_worker_pod : Pod)
    (namespace_ : String) (map_index : Option Nat) (run_id : Option String)
    (scheduler_job_id : String) (sfx : List Char) :
    (∀ e, construct_pod dag_id task_id pod_id kube_image try_number date args
        pod_override_object base_worker_pod namespace_ map_index run_id
        scheduler_job_id sfx = Except.error e →
      e = PodGenError.podReconciliationError) ∧
    (pod_override_object = OverridePod.malformed →
      construct_pod dag_id task_id pod_id kube_image try_number date args
        pod_override_object base_worker_pod namespace_ map_index run_id
        scheduler_job_id sfx = Except.error PodGenError.podReconciliationError) := by
  constructor
  · intro e he
    cases pod_override_object with
    | absent => exact absurd he (by simp [construct_pod, readOverride, reconcile_pods])
    | pod p => exact absurd he (by simp [construct_pod, readOverride, reconcile_pods])
    | malformed =>
      simp only [construct_pod, readOverride] at he
      exact (Except.error.injEq .. ▸ he).symm
  · rintro rfl
    rfl

/-- Witness for C7: a concrete invocation against a malformed override object
fails with PodReconciliationError. -/
theorem c7_construct_pod_error_surface_witness :
    construct_pod "dag_id" "task_id" "pod_id" (some "test-image") 3 none ["command"]
      OverridePod.malformed emptyPod "namespace" none none "uuid"
      (strOf "abcd1234") = Except.error PodGenError.podReconciliationError :=
  (c7_construct_pod_error_surface "dag_id" "task_id" "pod_id" (some "test-image") 3
    none ["command"] OverridePod.malformed emptyPod "namespace" none none "uuid"
    (strOf "abcd1234")).2 rfl

/-! ## Pod Constructor: identity annotations and label budget (claim C10) -/

/-- Labels of a pod, empty when the metadata or the labels are absent. -/
def podLabels (p : Pod) : KVMap :=
  (p.metadata.bind ObjectMeta.labels).getD []

/-- Annotation value of a pod at a key. -/
def annOf (p : Pod) (k : String) : Option String :=
  lookupKV ((p.metadata.bind ObjectMeta.annotations).getD []) k

/-- Every value of the mapping is within the 63-character label budget. -/
def valuesWithin63 (m : KVMap) : Bool :=
  m.all (fun kv => decide (kv.2.length ≤ 63))

/-- The pod of a successful construction (default for a failed one). -/
def okPod : Except PodGenError Pod → Pod
  | .ok p => p
  | .error _ => emptyPod

theorem digestChars_length (l : List Char) : (digestChars l).length = 9 := by
  simp [digestChars]

theorem make_safe_label_value_length_le (s : String) :
    (make_safe_label_value s).length ≤ 63 := by
  by_cases h : (s.toList.filter isLabelChar ++ '-' :: digestChars s.toList).length ≤ 63
  · rw [make_safe_label_value, if_pos h]
    exact h
  · rw [make_safe_label_value, if_neg h]
    show ((s.toList.filter isLabelChar).take 53 ++ '-' :: digestChars s.toList).length ≤ 63
    rw [List.length_append, List.length_cons, digestChars_length]
    have h53 : ((s.toList.filter isLabelChar).take 53).length ≤ 53 := by
      rw [List.length_take]
      exact min_le_left _ _
    omega

theorem datetime_label_length (d : String) :
    (datetime_to_label_safe_datestring d).length = d.length := by
  show (d.toList.map _).length = d.length
  rw [List.length_map]
  rfl

theorem mem_optLabel (key : String) (v : Option String) (kv : String × String)
    (h : kv ∈ optLabel key v) : ∃ s, v = some s ∧ kv = (key, s) := by
  cases v with
  | none => simp [optLabel] at h
  | some s =>
    simp only [optLabel, List.mem_singleton] at h
    exact ⟨s, rfl, h⟩

/-- Every label value the dynamic per-task pod carries is within the
63-character budget, given that the numeric and timestamp inputs render
within it (the sanitized values always are). -/
theorem dynamic_label_values_le (dag task : String) (tn : Nat) (w : Option String)
    (mi : Option Nat) (run : Option String) (d : Option String)
    (htn : (toString tn).length ≤ 63)
    (hmi : ∀ i, mi = some i → (toString i).length ≤ 63)
    (hd : ∀ x, d = some x → x.length ≤ 63) :
    ∀ kv ∈ (build_labels_for_k8s_executor_pod dag task tn w mi run d ++
        [("app", appIdentityLabel)]), kv.2.length ≤ 63 := by
  intro kv hkv
  rcases List.mem_append.mp hkv with h | h
  · rw [build_labels_for_k8s_executor_pod] at h
    rcases List.mem_append.mp h with h | h
    · rcases List.mem_append.mp h with h | h
      · rcases List.mem_append.mp h with h | h
        · rcases List.mem_append.mp h with h | h
          · simp only [List.mem_cons, List.not_mem_nil, or_false] at h
            rcases h with rfl | rfl | rfl | rfl | rfl
            · exact make_safe_label_value_length_le dag
            · exact make_safe_label_value_length_le task
            · exact htn
            · decide
            · decide
          · obtain ⟨s, hv, rfl⟩ := mem_optLabel _ _ _ h
            obtain ⟨x, _, rfl⟩ := Option.map_eq_some'.mp hv
            exact make_safe_label_value_length_le x
        · obtain ⟨s, hv, rfl⟩ := mem_optLabel _ _ _ h
          obtain ⟨i, hi, rfl⟩ := Option.map_eq_some'.mp hv
          exact hmi i hi
      · obtain ⟨s, hv, rfl⟩ := mem_optLabel _ _ _ h
        obtain ⟨x, _, rfl⟩ := Option.map_eq_some'.mp hv
        exact make_safe_label_value_length_le x
    · obtain ⟨s, hv, rfl⟩ := mem_optLabel _ _ _ h
      obtain ⟨x, hx, rfl⟩ := Option.map_eq_some'.mp hv
      rw [show ((("logical_date", datetime_to_label_safe_datestring x) :
        String × String)).2 = datetime_to_label_safe_datestring x from rfl,
        datetime_label_length]
      exact hd x hx
  · simp only [List.mem_singleton] at h
    rw [h]
    decide

theorem mem_insertKV (m : KVMap) (k v : String) (kv : String × String)
    (h : kv ∈ insertKV m k v) : kv ∈ m ∨ kv = (k, v) := by
  induction m with
  | nil =>
    simp only [insertKV, List.mem_singleton] at h
    exact Or.inr h
  | cons x rest ih =>
    obtain ⟨k0, v0⟩ := x
    by_cases h0 : k0 = k
    · simp only [insertKV, if_pos h0] at h
      rcases List.mem_cons.mp h with h1 | h1
      · exact Or.inr h1
      · exact Or.inl (List.mem_cons_of_mem _ h1)
    · simp only [insertKV, if_neg h0] at h
      rcases List.mem_cons.mp h with h1 | h1
      · exact Or.inl (h1 ▸ List.mem_cons_self _ _)
      · rcases ih h1 with h2 | h2
        · exact Or.inl (List.mem_cons_of_mem _ h2)
        · exact Or.inr h2

theorem mergeMaps_values_bound (P : String → Prop) (bm cm : KVMap)
    (hb : ∀ kv ∈ bm, P kv.2) (hc : ∀ kv ∈ cm, P kv.2) :
    ∀ kv ∈ mergeMaps bm cm, P kv.2 := by
  induction cm generalizing bm with
  | nil => simpa [mergeMaps] using hb
  | cons x rest ih =>
    have hstep : mergeMaps bm (x :: rest) = mergeMaps (insertKV bm x.1 x.2) rest := rfl
    rw [hstep]
    refine ih _ ?_ ?_
    · intro kv hkv
      rcases mem_insertKV bm x.1 x.2 kv hkv with h | h
      · exact hb kv h
      · rw [h]
        exact hc x (List.mem_cons_self _ _)
    · intro kv hkv
      exact hc kv (List.mem_cons_of_mem _ hkv)

/-- Metadata reconciliation merges the label mappings key-wise underneath the
optional layers. -/
theorem bind_labels_reconcile (bo : Option ObjectMeta) (cMeta : ObjectMeta) :
    (reconcile_metadata bo (some cMeta)).bind ObjectMeta.labels
      = mergeMapOpt (bo.bind ObjectMeta.labels) cMeta.labels := by
  cases bo with
  | none =>
    cases hcl : cMeta.labels <;> simp [reconcile_metadata, mergeMapOpt, hcl]
  | some bm => rfl

theorem bind_ann_reconcile (bo : Option ObjectMeta) (cMeta : ObjectMeta) :
    (reconcile_metadata bo (some cMeta)).bind ObjectMeta.annotations
      = mergeMapOpt (bo.bind ObjectMeta.annotations) cMeta.annotations := by
  cases bo with
  | none =>
    cases hca : cMeta.annotations <;> simp [reconcile_metadata, mergeMapOpt, hca]
  | some bm => rfl

theorem valuesWithin63_mergeMapOpt (bo : Option KVMap) (cm : KVMap)
    (hb : valuesWithin63 (bo.getD []) = true)
    (hc : ∀ kv ∈ cm, kv.2.length ≤ 63) :
    valuesWithin63 ((mergeMapOpt bo (some cm)).getD []) = true := by
  cases bo with
  | none =>
    rw [show mergeMapOpt none (some cm) = some cm from rfl, Option.getD_some,
      valuesWithin63, List.all_eq_true]
    intro kv hkv
    rw [decide_eq_true_eq]
    exact hc kv hkv
  | some bm =>
    rw [show mergeMapOpt (some bm) (some cm) = some (mergeMaps bm cm) from rfl,
      Option.getD_some, valuesWithin63, List.all_eq_true]
    intro kv hkv
    rw [decide_eq_true_eq]
    rw [valuesWithin63, Option.getD_some, List.all_eq_true] at hb
    refine mergeMaps_values_bound (fun v => v.length ≤ 63) bm cm ?_ hc kv hkv
    intro kv' hkv'
    exact decide_eq_true_eq.mp (hb kv' hkv')

theorem lookup_mergeMapOpt_hit (bo : Option KVMap) (cm : KVMap) (k v : String)
    (hn : (cm.map Prod.fst).Nodup) (hhit : lookupKV cm k = some v) :
    lookupKV ((mergeMapOpt bo (some cm)).getD []) k = some v := by
  cases bo with
  | none =>
    rw [show mergeMapOpt none (some cm) = some cm from rfl, Option.getD_some]
    exact hhit
  | some bm =>
    rw [show mergeMapOpt (some bm) (some cm) = some (mergeMaps bm cm) from rfl,
      Option.getD_some, lookupKV_mergeMaps bm cm hn k, hhit]

theorem construct_annotations_keys_nodup (dag task : String) (tn : Nat)
    (mi : Option Nat) (run : Option String) (d : Option String) :
    ((construct_annotations dag task tn mi run d).map Prod.fst).Nodup := by
  cases mi <;> cases run <;> cases d <;>
    simp [construct_annotations, optLabel]

theorem construct_annotations_lookup_dag (dag task : String) (tn : Nat)
    (mi : Option Nat) (run : Option String) (d : Option String) :
    lookupKV (construct_annotations dag task tn mi run d) "dag_id" = some dag := by
  simp [construct_annotations, lookupKV, List.cons_append]

theorem construct_annotations_lookup_task (dag task : String) (tn : Nat)
    (mi : Option Nat) (run : Option String) (d : Option String) :
    lookupKV (construct_annotations dag task tn mi run d) "task_id" = some task := by
  have hne : ("dag_id" : String) ≠ "task_id" := by decide
  simp [construct_annotations, lookupKV, List.cons_append, hne]

/-- C10 (amended): for every construction whose override object is absent,
whose base template's label values are within the 63-character budget, and
whose numeric/timestamp inputs render within it, the produced pod's `dag_id`
and `task_id` annotations equal the raw caller-supplied identifiers
unchanged, and every label value of the produced pod has length at most 63. -/
theorem c10_construct_pod_identity_amended
    (dag task pid : String) (img : Option String) (tn : Nat) (d : Option String)
    (args : List String) (base : Pod) (ns : String) (mi : Option Nat)
    (run : Option String) (job : String) (sfx : List Char)
    (hbase : valuesWithin63 (podLabels base) = true)
    (htn : (toString tn).length ≤ 63)
    (hmi : ∀ i, mi = some i → (toString i).length ≤ 63)
    (hd : ∀ x, d = some x → x.length ≤ 63) :
    (construct_pod dag task pid img tn d args OverridePod.absent base ns mi run
      job sfx).isOk = true ∧
    valuesWithin63 (podLabels (okPod (construct_pod dag task pid img tn d args
      OverridePod.absent base ns mi run job sfx))) = true ∧
    annOf (okPod (construct_pod dag task pid img tn d args OverridePod.absent
      base ns mi run job sfx)) "dag_id" = some dag ∧
    annOf (okPod (construct_pod dag task pid img tn d args OverridePod.absent
      base ns mi run job sfx)) "task_id" = some task := by
  have hok : okPod (construct_pod dag task pid img tn d args OverridePod.absent
        base ns mi run job sfx)
      = { api_version := mergeScalar base.api_version (some "v1")
          kind := mergeScalar base.kind (some "Pod")
          metadata := reconcile_metadata base.metadata
            (construct_dynamic_pod dag task pid img tn d args ns mi run job sfx).metadata
          spec := reconcile_specs base.spec
            (construct_dynamic_pod dag task pid img tn d args ns mi run job sfx).spec } := rfl
  have hdynmeta : (construct_dynamic_pod dag task pid img tn d args ns mi run job sfx).metadata
      = some { name := some (String.mk (add_unique_suffix pid.toList sfx))
               namespace_ := some ns
               labels := some (build_labels_for_k8s_executor_pod dag task tn
                 (some job) mi run d ++ [("app", appIdentityLabel)])
               annotations := some (construct_annotations dag task tn mi run d) } := rfl
  refine ⟨rfl, ?_, ?_, ?_⟩
  · simp only [hok, podLabels, hdynmeta]
    rw [bind_labels_reconcile]
    exact valuesWithin63_mergeMapOpt _ _ hbase
      (dynamic_label_values_le dag task tn (some job) mi run d htn hmi hd)
  · simp only [hok, annOf, hdynmeta]
    rw [bind_ann_reconcile]
    exact lookup_mergeMapOpt_hit _ _ _ _
      (construct_annotations_keys_nodup dag task tn mi run d)
      (construct_annotations_lookup_dag dag task tn mi run d)
  · simp only [hok, annOf, hdynmeta]
    rw [bind_ann_reconcile]
    exact lookup_mergeMapOpt_hit _ _ _ _
      (construct_annotations_keys_nodup dag task tn mi run d)
      (construct_annotations_lookup_task dag task tn mi run d)

/-- A base template carrying a label value longer than the 63-character
budget; construct_pod propagates it into the produced pod. -/
def c10BasePod : Pod :=
  { api_version := none, kind := none
    metadata := some
      { name := none, namespace_ := none
        labels := some [("stretched", String.mk (List.replicate 64 'a'))]
        annotations := none }
    spec := none }

/-- An override pod that rebinds the `dag_id` annotation; reconciliation
lets the override win, so the produced pod's annotation is no longer the raw
caller-supplied identifier. -/
def c10OverridePod : Pod :=
  { api_version := none, kind := none
    metadata := some
      { name := none, namespace_ := none, labels := none
        annotations := some [("dag_id", "oops")] }
    spec := none }

/-- C10 counterexample: a single concrete invocation — base template with a
64-character label value and an override that rebinds the `dag_id`
annotation — produces a pod whose `dag_id` annotation is not the raw
caller-supplied identifier and whose labels exceed the 63-character budget,
so the claim is false as stated over every invocation. -/
theorem c10_construct_pod_identity_counterexample :
    (construct_pod "mydag" "mytask" "pod" none 1 none []
        (OverridePod.pod c10OverridePod) c10BasePod "ns" none none "job"
        (strOf "abcd1234")).isOk = true ∧
    valuesWithin63 (podLabels (okPod (construct_pod "mydag" "mytask" "pod" none 1
        none [] (OverridePod.pod c10OverridePod) c10BasePod "ns" none none "job"
        (strOf "abcd1234")))) = false ∧
    annOf (okPod (construct_pod "mydag" "mytask" "pod" none 1 none []
        (OverridePod.pod c10OverridePod) c10BasePod "ns" none none "job"
        (strOf "abcd1234"))) "dag_id" = some "oops" := by
  decide

/-- A well-behaved base template for the amended C10's witness. -/
def c10WitnessBase : Pod :=
  { api_version := some "v1", kind := some "Pod"
    metadata := some
      { name := some "memory-demo", namespace_ := some "mem-example"
        labels := some [("app", "myapp")]
        annotations := none }
    spec := none }

/-- Witness for the amended C10 at a concrete well-behaved invocation. -/
theorem c10_construct_pod_identity_amended_witness :
    (valuesWithin63 (podLabels c10WitnessBase) = true ∧
     (toString 3).length ≤ 63) ∧
    ((construct_pod "dag_id" "task_id" "pod_id" (some "test-image") 3 none
        ["command"] OverridePod.absent c10WitnessBase "namespace" none none
        "uuid" (strOf "abcd1234")).isOk = true ∧
     valuesWithin63 (podLabels (okPod (construct_pod "dag_id" "task_id" "pod_id"
        (some "test-image") 3 none ["command"] OverridePod.absent c10WitnessBase
        "namespace" none none "uuid" (strOf "abcd1234")))) = true ∧
     annOf (okPod (construct_pod "dag_id" "task_id" "pod_id" (some "test-image")
        3 none ["command"] OverridePod.absent c10WitnessBase "namespace" none
        none "uuid" (strOf "abcd1234"))) "dag_id" = some "dag_id" ∧
     annOf (okPod (construct_pod "dag_id" "task_id" "pod_id" (some "test-image")
        3 none ["command"] OverridePod.absent c10WitnessBase "namespace" none
        none "uuid" (strOf "abcd1234"))) "task_id" = some "task_id") :=
  ⟨⟨by decide, by decide⟩,
   c10_construct_pod_identity_amended "dag_id" "task_id" "pod_id"
     (some "test-image") 3 none ["command"] c10WitnessBase "namespace" none none
     "uuid" (strOf "abcd1234") (by decide) (by decide)
     (fun i hi => nomatch hi) (fun x hx => nomatch hx)⟩

end PodGen
